import Mathlib

/-!
Verification of the RuPing standalone installer/uninstaller
(`installer/installer.py`, `installer/uninstaller.py`).

The development shallowly embeds the two Python modules:

* the pure string manipulation of the system search-path value
  (`split(';')` / `join(';')` / the substring test of Python's `in`)
  is embedded as executable functions on `List Char` / `String`;
* the resource-location logic of `extract_embedded_file` is embedded as a
  pure function over a `ResourceEnv` describing which candidate sources
  exist (PyInstaller bundle, local files, the `EMBEDDED_FILES` table);
* the stateful install/uninstall orchestration is embedded as explicit
  state passing over a `World` record holding the admin-probe outcome, the
  set of directories and files, the registry `PATH` value and the start
  menu shortcuts.  I/O primitives that the scripts assume to succeed
  (registry read/write, `shutil.copy2`, `mkdir`, `unlink`, `rmdir`) are
  modelled as total state updates; the explicit failure branches of the
  scripts (admin gate, missing resource, cancelled confirmation,
  unresolvable installation) are modelled faithfully.
-/

namespace RuPing

/-! ## Python string splitting and joining on a one-character separator -/

/-- Python's `str.split(sep)` for a one-character separator, on character
lists: `''.split(';') == ['']`, `'a;;b'.split(';') == ['a','','b']`. -/
def pySplit (sep : Char) : List Char → List (List Char)
  | [] => [[]]
  | c :: cs =>
    let r := pySplit sep cs
    if c = sep then [] :: r else (c :: r.headD []) :: r.tail

/-- Python's `sep.join(parts)` for a one-character separator, on character
lists. -/
def pyJoin (sep : Char) : List (List Char) → List Char
  | [] => []
  | s :: ss =>
    match ss with
    | [] => s
    | _ :: _ => s ++ sep :: pyJoin sep ss

/-- Whether `needle` occurs at the start of `hay` (`str.startswith`). -/
def listStartsWith : List Char → List Char → Bool
  | _, [] => true
  | [], _ :: _ => false
  | c :: cs, d :: ds => c = d && listStartsWith cs ds

/-- Python's substring test `needle in hay`, on character lists. -/
def occursIn (needle : List Char) : List Char → Bool
  | [] => needle.isEmpty
  | c :: cs => listStartsWith (c :: cs) needle || occursIn needle cs

/-- Python's substring test `needle in hay` on `String`
(`installer.py` line 178: `str(path_to_add) not in current_path`). -/
def strOccursIn (needle hay : String) : Bool :=
  occursIn needle.data hay.data

/-- The delimiter-separated segments of a search-path value
(`current_path.split(';')` in `uninstaller.py` line 43). -/
def pathSegments (s : String) : List String :=
  (pySplit ';' s.data).map (fun l => ⟨l⟩)

/-- The pure rewrite of the search-path value performed by
`RuPingStandaloneUninstaller.remove_from_path` (lines 42-45): split the
current value on `;`, drop every segment equal to the directory, rejoin. -/
def removeSegs (sep : Char) (cs d : List Char) : List Char :=
  pyJoin sep ((pySplit sep cs).filter (fun p => p ≠ d))

/-- `remove_from_path`'s new `PATH` value, on `String`. -/
def removeFromPathValue (cur dir : String) : String :=
  ⟨removeSegs ';' cur.data dir.data⟩

/-! ## The settings-changed broadcast primitives -/

/-- The Win32 call used to broadcast `WM_SETTINGCHANGE`:
`installer.py` line 185 calls `SendMessageW` (no timeout argument);
`uninstaller.py` lines 55-63 call `SendMessageTimeoutW` with flags
`SMTO_ABORTIFHUNG = 0x0002` and a timeout of `3000` milliseconds. -/
inductive BroadcastCall where
  | sendMessage
  | sendMessageTimeout (flags : Nat) (timeoutMillis : Nat)
deriving DecidableEq

/-- Whether a broadcast call is made through the bounded-timeout primitive
with a cap of 3000 ms. -/
def boundedBy3000 : BroadcastCall → Bool
  | .sendMessage => false
  | .sendMessageTimeout _ t => t = 3000

/-- Result of a search-path mutator call: the value written back, the
boolean the Python function returns, and the broadcast calls it issues. -/
structure MutatorResult where
  value : String
  ok : Bool
  broadcasts : List BroadcastCall
deriving DecidableEq

/-- `RuPingStandaloneInstaller.add_to_path` (lines 170-194), registry I/O
assumed to succeed: if `str(path_to_add) not in current_path` (a Python
substring test), append `";" + path` and broadcast via `SendMessageW`;
otherwise leave the value unchanged; both branches return `True`. -/
def addToPath (cur dir : String) : MutatorResult :=
  if strOccursIn dir cur = false then
    { value := cur ++ ";" ++ dir, ok := true, broadcasts := [.sendMessage] }
  else
    { value := cur, ok := true, broadcasts := [] }

/-- `RuPingStandaloneUninstaller.remove_from_path` (lines 34-71), registry
I/O assumed to succeed: split/filter/join the value, broadcast via
`SendMessageTimeoutW(..., SMTO_ABORTIFHUNG, 3000, ...)` inside a
`try/except` that only logs a warning, and return `True`. -/
def removeFromPath (cur dir : String) : MutatorResult :=
  { value := removeFromPathValue cur dir,
    ok := true,
    broadcasts := [.sendMessageTimeout 0x0002 3000] }

/-! ## Resource location (`extract_embedded_file`) -/

/-- Association-list lookup with decidable string equality (Python
`dict[...]` / `key in dict`). -/
def assocFind : List (String × String) → String → Option String
  | [], _ => none
  | (k, v) :: rest, key => if k = key then some v else assocFind rest key

/-- The `EMBEDDED_FILES` dictionary of `installer.py` lines 20-26: the two
binary entries are empty placeholders (populated by the build script); the
three launcher scripts carry inline text. -/
def EMBEDDED_FILES : List (String × String) :=
  [("ruping.exe", ""),
   ("uninstaller.py", ""),
   ("ruping.cmd", "@echo off\n\"%~dp0ruping.exe\" %*\n"),
   ("rustping.cmd", "@echo off\n\"%~dp0ruping.exe\" %*\n"),
   ("rping.cmd", "@echo off\n\"%~dp0ruping.exe\" %*\n")]

/-- Placeholder for `Path(__file__).parent`, the directory holding the
installer script. -/
def scriptDir : String := "<scriptdir>"

/-- `str.endswith` via reversed character lists. -/
def strEndsWith (s pat : String) : Bool :=
  listStartsWith s.data.reverse pat.data.reverse

/-- The local filesystem candidates of `installer.py` lines 114-119, in
order: `Path(filename)`, `../target/release/filename` for `.exe` files
(else `Path(filename)` again), the script directory, and the sibling
`target/release` build-output directory for `.exe` files. -/
def localCandidates (filename : String) : List String :=
  [filename,
   if strEndsWith filename ".exe" = true then "../target/release/" ++ filename else filename,
   scriptDir ++ "/" ++ filename,
   if strEndsWith filename ".exe" = true then scriptDir ++ "/../target/release/" ++ filename
   else filename]

/-- The environment `extract_embedded_file` runs against: the PyInstaller
bundle contents (`none` when `sys._MEIPASS` is unset), and the contents of
whichever local candidate paths exist on disk. -/
structure ResourceEnv where
  bundle : Option (List (String × String))
  localFS : List (String × String)

/-- First existing candidate path's contents (`installer.py` lines
121-134, the `shutil.copy2` assumed to succeed). -/
def firstExisting (fs : List (String × String)) : List String → Option String
  | [] => none
  | p :: ps =>
    match assocFind fs p with
    | some data => some data
    | none => firstExisting fs ps

/-- The fallback part of `extract_embedded_file` (lines 108-168), reached
when the bundle strategy did not yield the file: local candidate paths are
tried only when `filename not in EMBEDDED_FILES` (line 112); for a key of
`EMBEDDED_FILES`, empty content fails (line 142) and non-empty content is
written out. -/
def extractFallback (env : ResourceEnv) (filename : String) : Option String :=
  match assocFind EMBEDDED_FILES filename with
  | none => firstExisting env.localFS (localCandidates filename)
  | some content => if content = "" then none else some content

/-- `RuPingStandaloneInstaller.extract_embedded_file` (lines 66-168) as a
pure function returning the contents written to the target path (`none`
for the `return False` branches).  The bundle copy (`shutil.copy2`, lines
80-96) is assumed to succeed when the bundled file exists. -/
def extractEmbeddedFile (env : ResourceEnv) (filename : String) : Option String :=
  match env.bundle with
  | some b =>
    match assocFind b filename with
    | some data => some data
    | none => extractFallback env filename
  | none => extractFallback env filename

/-- The bundle strategy on its own: what `extract_embedded_file` finds in
the PyInstaller extraction root (lines 74-106). -/
def bundleFind (env : ResourceEnv) (filename : String) : Option String :=
  match env.bundle with
  | some b => assocFind b filename
  | none => none

/-! ## The world state shared by install and uninstall -/

/-- Outcome of probing `ctypes.windll.shell32.IsUserAnAdmin()`: a boolean
answer, or an exception (`err`), which `is_admin` maps to `False`
(`installer.py` lines 36-41, `uninstaller.py` lines 20-25). -/
inductive AdminProbe where
  | ok (b : Bool)
  | err
deriving DecidableEq

/-- `is_admin()`: the probe's answer, with any probe error treated as not
elevated. -/
def isAdminResult : AdminProbe → Bool
  | .ok b => b
  | .err => false

/-- Contents of a file as far as the two scripts can distinguish them: raw
content, a parseable `install_info.json` ledger (its `install_path` and
`installed_files` fields), or a present-but-unparseable ledger. -/
inductive FileData where
  | content (s : String)
  | ledgerFile (installPath : String) (installedFiles : List String)
  | corruptLedger
deriving DecidableEq

/-- The machine state the two scripts read and mutate: the admin probe,
the existing directories, the files (keyed by directory and filename), the
registry `PATH` value, and the start menu shortcut files. -/
structure World where
  adminProbe : AdminProbe
  dirs : List String
  files : List ((String × String) × FileData)
  pathValue : String
  shortcuts : List String
deriving DecidableEq

/-- The elevated-rights check as the scripts see it. -/
def World.isAdmin (w : World) : Bool := isAdminResult w.adminProbe

/-- Association lookup in the file table. -/
def findEntry : List ((String × String) × FileData) → String × String → Option FileData
  | [], _ => none
  | (k, v) :: rest, key => if k = key then some v else findEntry rest key

/-- Remove every entry with the given key from the file table. -/
def eraseEntry : List ((String × String) × FileData) → String × String →
    List ((String × String) × FileData)
  | [], _ => []
  | (k, v) :: rest, key =>
    if k = key then eraseEntry rest key else (k, v) :: eraseEntry rest key

/-- Contents of the file `f` in directory `d`, if present. -/
def lookupFile (w : World) (d f : String) : Option FileData :=
  findEntry w.files (d, f)

/-- `Path.exists()` for a file. -/
def fileExists (w : World) (d f : String) : Bool :=
  (lookupFile w d f).isSome

/-- `Path.exists()` for a directory. -/
def dirExists (w : World) (d : String) : Bool :=
  decide (d ∈ w.dirs)

/-- `not any(install_dir.iterdir())`: no file lives in `d`. -/
def dirEmpty (w : World) (d : String) : Bool :=
  w.files.all (fun e => decide (e.1.1 ≠ d))

/-- Write (create or overwrite) a file. -/
def writeFile (w : World) (d f : String) (data : FileData) : World :=
  { w with files := ((d, f), data) :: eraseEntry w.files (d, f) }

/-- `Path.unlink()` (a no-op when the file is absent, matching the
`if file_path.exists()` guard around each deletion). -/
def deleteFile (w : World) (d f : String) : World :=
  { w with files := eraseEntry w.files (d, f) }

/-- Delete each file of the list from directory `d`
(`uninstaller.py` lines 187-197). -/
def deleteFiles (w : World) (d : String) : List String → World
  | [] => w
  | f :: fs => deleteFiles (deleteFile w d f) d fs

/-- `mkdir(parents=True, exist_ok=True)` on the install directory. -/
def mkdir (w : World) (d : String) : World :=
  if d ∈ w.dirs then w else { w with dirs := d :: w.dirs }

/-- `Path.rmdir()`. -/
def rmdir (w : World) (d : String) : World :=
  { w with dirs := w.dirs.filter (fun x => x ≠ d) }

/-! ## The install orchestrator -/

/-- `PROGRAMFILES` joined with the app name: the default install
directory (`installer.py` line 33). -/
def defaultInstallPath : String := "C:\\Program Files\\RuPing"

/-- `LOCALAPPDATA` joined with the app name (`uninstaller.py` line 121). -/
def localAppDataRuPing : String := "C:\\Users\\user\\AppData\\Local\\RuPing"

/-- The ledger filename `install_info.json`. -/
def installInfoFile : String := "install_info.json"

/-- The artifacts `install` extracts, in order (`installer.py` lines
264-271): the main executable, the uninstaller executable, and one `.cmd`
launcher per alias. -/
def filesToExtract : List String :=
  ["ruping.exe", "ruping-uninstaller.exe", "ruping.cmd", "rustping.cmd", "rping.cmd"]

/-- The `installed_files` list `save_install_info` records (`installer.py`
lines 223-227). -/
def installedFilesList : List String :=
  ["ruping.exe", "ruping-uninstaller.exe", "install_info.json",
   "ruping.cmd", "rustping.cmd", "rping.cmd"]

/-- Arguments of `RuPingStandaloneInstaller.install`. -/
structure InstallArgs where
  installPath : Option String
  noPath : Bool
  silent : Bool

/-- The extraction loop of `install` (lines 276-281): extract each
artifact in order into the install directory, aborting on the first
failure and leaving the files already written in place. -/
def extractAll (renv : ResourceEnv) (d : String) : List String → World → World × Bool
  | [], w => (w, true)
  | f :: fs, w =>
    match extractEmbeddedFile renv f with
    | none => (w, false)
    | some data => extractAll renv d fs (writeFile w d f (.content data))

/-- Insert the start menu descriptor `RuPing.url`
(`create_start_menu_shortcut`, lines 196-215). -/
def addShortcuts (l : List String) : List String :=
  if "RuPing.url" ∈ l then l else "RuPing.url" :: l

/-- Path registration step of `install` (lines 284-285): call
`add_to_path(install_dir)` unless `--no-path` was given. -/
def installPhase1 (args : InstallArgs) (w : World) (d : String) : World :=
  if args.noPath = false then { w with pathValue := (addToPath w.pathValue d).value }
  else w

/-- Start menu shortcut step of `install` (line 288). -/
def installPhase2 (w : World) : World :=
  { w with shortcuts := addShortcuts w.shortcuts }

/-- The tail of a successful `install` run after all extractions
succeeded: path registration unless `--no-path` (lines 284-285), start
menu shortcut (line 288), ledger write (line 291). -/
def installCore (args : InstallArgs) (w : World) (d : String) : World :=
  writeFile (installPhase2 (installPhase1 args w d)) d installInfoFile
    (.ledgerFile d installedFilesList)

/-- `RuPingStandaloneInstaller.install` (lines 238-309): admin gate,
resolve the target directory, create it, extract every artifact (fatal on
the first failure), then register the path, create the shortcut and write
the ledger — returning the world reached and the success flag (`sys.exit(1)`
from the admin gate modelled as a failing result with the world
untouched). -/
def install (renv : ResourceEnv) (args : InstallArgs) (w : World) : World × Bool :=
  if w.isAdmin = false then (w, false)
  else if (extractAll renv (args.installPath.getD defaultInstallPath) filesToExtract
      (mkdir w (args.installPath.getD defaultInstallPath))).2 = false then
    ((extractAll renv (args.installPath.getD defaultInstallPath) filesToExtract
      (mkdir w (args.installPath.getD defaultInstallPath))).1, false)
  else
    (installCore args
      (extractAll renv (args.installPath.getD defaultInstallPath) filesToExtract
        (mkdir w (args.installPath.getD defaultInstallPath))).1
      (args.installPath.getD defaultInstallPath), true)

/-! ## The uninstall orchestrator -/

/-- The default deletion list of `uninstall` (`uninstaller.py` lines
177-185), used when no parseable ledger drives the run. -/
def defaultFilesToRemove : List String :=
  ["ruping.exe", "ruping.cmd", "rustping.cmd", "rping.cmd",
   "uninstaller.py", "install_info.json"]

/-- The conventional locations probed by `find_installation` (lines
119-123); `Path("C:") / "RuPing"` is a drive-relative pathlib join. -/
def possibleInstallPaths : List String :=
  [defaultInstallPath, localAppDataRuPing, "C:RuPing"]

/-- Arguments and interactive inputs of
`RuPingStandaloneUninstaller.uninstall`: the optional explicit directory,
the silent flag, the answer to the confirmation prompt (`True` iff the
user typed `y`/`yes`), and the manual directory entered at the
installation-not-found prompt (`none` for an empty/cancelling answer). -/
structure UninstallArgs where
  installPath : Option String
  silent : Bool
  confirm : Bool
  customPath : Option String

/-- `find_installation` (lines 92-129): a parseable ledger next to the
running program wins and supplies both the directory and the file list; a
missing or unparseable ledger falls through to the current-directory
heuristic, then to the fixed list of conventional locations. -/
def findInstallation (w : World) (currentDir : String) : Option String × Option (List String) :=
  match lookupFile w currentDir installInfoFile with
  | some (.ledgerFile p fl) => (some p, some fl)
  | _ =>
    if fileExists w currentDir "ruping.exe" = true then (some currentDir, none)
    else
      match possibleInstallPaths.find?
          (fun p => dirExists w p && fileExists w p "ruping.exe") with
      | some p => (some p, none)
      | none => (none, none)

/-- Target resolution at the top of `uninstall` (lines 141-145): an
explicit `--install-path` bypasses `find_installation` and carries no
ledger. -/
def resolveTarget (args : UninstallArgs) (currentDir : String) (w : World) :
    Option String × Option (List String) :=
  match args.installPath with
  | some p => (some p, none)
  | none => findInstallation w currentDir

/-- The installation-not-found fallback (lines 147-157): silent runs fail
immediately; interactive runs accept a manually entered existing
directory, else cancel. -/
def resolveCustom (args : UninstallArgs) (w : World) : Option String :=
  if args.silent = true then none
  else
    match args.customPath with
    | some p => if dirExists w p = true then some p else none
    | none => none

/-- `remove_from_path(install_dir)` step of `uninstall` (line 167). -/
def uninstallPhase1 (w : World) (d : String) : World :=
  { w with pathValue := (removeFromPath w.pathValue d).value }

/-- `remove_start_menu_shortcut()` step of `uninstall` (line 170): unlink
`RuPing.lnk` and `RuPing.url` from the start menu. -/
def uninstallPhase2 (w : World) : World :=
  { w with shortcuts := w.shortcuts.filter (fun s => s ≠ "RuPing.lnk" ∧ s ≠ "RuPing.url") }

/-- The mutating tail of `uninstall` once a directory is resolved and
confirmed (lines 166-209): remove the directory from `PATH`, delete the
start menu shortcuts, delete the listed files, and remove the directory
itself exactly when it ended up empty. -/
def uninstallCore (w : World) (d : String) (toRemove : List String) : World :=
  if dirEmpty (deleteFiles (uninstallPhase2 (uninstallPhase1 w d)) d toRemove) d = true
  then rmdir (deleteFiles (uninstallPhase2 (uninstallPhase1 w d)) d toRemove) d
  else deleteFiles (uninstallPhase2 (uninstallPhase1 w d)) d toRemove

/-- The directory `uninstall` ends up operating on (lines 141-157): the
resolved target when it exists on disk, else the interactive manual-path
fallback. -/
def resolveDir (args : UninstallArgs) (currentDir : String) (w : World) : Option String :=
  match (resolveTarget args currentDir w).1 with
  | some d => if dirExists w d = true then some d else resolveCustom args w
  | none => resolveCustom args w

/-- `RuPingStandaloneUninstaller.uninstall` (lines 131-217): admin gate,
target resolution (explicit argument, else `find_installation`, else the
interactive manual prompt), the confirmation prompt unless silent, then
the mutating tail; the file list is the ledger's `installed_files` when
one was parsed, else the default list. -/
def uninstall (args : UninstallArgs) (currentDir : String) (w : World) : World × Bool :=
  if w.isAdmin = false then (w, false)
  else
    match resolveDir args currentDir w with
    | none => (w, false)
    | some d =>
      if args.silent = false ∧ args.confirm = false then (w, false)
      else
        (uninstallCore w d ((resolveTarget args currentDir w).2.getD defaultFilesToRemove),
         true)

/-! ## Concrete inputs for closed runs -/

/-- A resource environment whose PyInstaller bundle carries all five
artifacts. -/
def renvDemo : ResourceEnv :=
  ⟨some [("ruping.exe", "A"), ("ruping-uninstaller.exe", "B"),
    ("ruping.cmd", "C"), ("rustping.cmd", "D"), ("rping.cmd", "E")], []⟩

/-- An elevated machine with nothing installed yet. -/
def worldDemo : World := ⟨AdminProbe.ok true, [], [], "C:\\X", []⟩

/-- A world holding an installation at `C:\RP` whose ledger is corrupt. -/
def worldCorrupt : World :=
  ⟨AdminProbe.ok true, ["C:\\RP"],
   [(("C:\\RP", "install_info.json"), FileData.corruptLedger),
    (("C:\\RP", "ruping.exe"), FileData.content "X"),
    (("C:\\RP", "ruping.cmd"), FileData.content "Y")],
   "P", []⟩

/-! ## Lemmas on splitting and joining -/

theorem pySplit_cons (sep c : Char) (cs : List Char) :
    pySplit sep (c :: cs) =
      if c = sep then [] :: pySplit sep cs
      else (c :: (pySplit sep cs).headD []) :: (pySplit sep cs).tail := rfl

theorem pySplit_ne_nil (sep : Char) (cs : List Char) : pySplit sep cs ≠ [] := by
  induction cs with
  | nil => simp [pySplit]
  | cons c cs ih =>
    rw [pySplit_cons]
    cases h : pySplit sep cs with
    | nil => exact absurd h ih
    | cons s ss => by_cases hc : c = sep <;> simp [hc]

theorem pyJoin_pySplit (sep : Char) (cs : List Char) :
    pyJoin sep (pySplit sep cs) = cs := by
  induction cs with
  | nil => rfl
  | cons c cs ih =>
    rw [pySplit_cons]
    cases h : pySplit sep cs with
    | nil => exact absurd h (pySplit_ne_nil sep cs)
    | cons s ss =>
      rw [h] at ih
      by_cases hc : c = sep
      · subst hc
        simpa [pyJoin] using ih
      · rw [if_neg hc]
        simp only [List.headD_cons, List.tail_cons]
        cases ss with
        | nil => simpa [pyJoin] using congrArg (c :: ·) ih
        | cons t ts =>
          simp only [pyJoin] at ih ⊢
          rw [List.cons_append, ih]

theorem sep_not_mem_pySplit (sep : Char) (cs : List Char) :
    ∀ l ∈ pySplit sep cs, sep ∉ l := by
  induction cs with
  | nil =>
    intro l hl
    simp [pySplit] at hl
    simp [hl]
  | cons c cs ih =>
    intro l hl
    rw [pySplit_cons] at hl
    cases h : pySplit sep cs with
    | nil => exact absurd h (pySplit_ne_nil sep cs)
    | cons s ss =>
      rw [h] at hl
      rw [h] at ih
      by_cases hc : c = sep
      · rw [if_pos hc] at hl
        rcases List.mem_cons.mp hl with rfl | hl2
        · simp
        · exact ih l hl2
      · rw [if_neg hc] at hl
        simp only [List.headD_cons, List.tail_cons] at hl
        rcases List.mem_cons.mp hl with rfl | hl2
        · intro hmem
          rcases List.mem_cons.mp hmem with rfl | hmem2
          · exact hc rfl
          · exact ih s (List.mem_cons_self s ss) hmem2
        · exact ih l (List.mem_cons_of_mem s hl2)

theorem pySplit_sepFree (sep : Char) (s : List Char) (h : sep ∉ s) :
    pySplit sep s = [s] := by
  induction s with
  | nil => rfl
  | cons c cs ih =>
    rw [List.mem_cons] at h
    push_neg at h
    obtain ⟨h1, h2⟩ := h
    rw [pySplit_cons, ih h2, if_neg (Ne.symm h1)]
    simp

theorem pySplit_append_sep (sep : Char) (s rest : List Char) (h : sep ∉ s) :
    pySplit sep (s ++ sep :: rest) = s :: pySplit sep rest := by
  induction s with
  | nil => simp [pySplit_cons]
  | cons c cs ih =>
    rw [List.mem_cons] at h
    push_neg at h
    obtain ⟨h1, h2⟩ := h
    rw [List.cons_append, pySplit_cons, ih h2, if_neg (Ne.symm h1)]
    cases hr : pySplit sep rest with
    | nil => exact absurd hr (pySplit_ne_nil sep rest)
    | cons a as => simp

theorem pySplit_pyJoin (sep : Char) (l : List (List Char)) (hne : l ≠ [])
    (hfree : ∀ s ∈ l, sep ∉ s) :
    pySplit sep (pyJoin sep l) = l := by
  induction l with
  | nil => exact absurd rfl hne
  | cons s ss ih =>
    cases ss with
    | nil =>
      simp only [pyJoin]
      exact pySplit_sepFree sep s (hfree s (List.mem_cons_self s []))
    | cons t ts =>
      have h1 : pyJoin sep (s :: t :: ts) = s ++ sep :: pyJoin sep (t :: ts) := rfl
      rw [h1, pySplit_append_sep sep s _ (hfree s (List.mem_cons_self s _)),
        ih (by simp) (fun x hx => hfree x (List.mem_cons_of_mem s hx))]

theorem removeSegs_not_mem (sep : Char) (cs d : List Char) (h : d ∉ pySplit sep cs) :
    removeSegs sep cs d = cs := by
  unfold removeSegs
  have hf : (pySplit sep cs).filter (fun p => p ≠ d) = pySplit sep cs := by
    apply List.filter_eq_self.mpr
    intro a ha
    simp only [ne_eq, decide_not, Bool.not_eq_true', decide_eq_false_iff_not]
    exact fun e => h (e ▸ ha)
  rw [hf, pyJoin_pySplit]

theorem pySplit_removeSegs (sep : Char) (cs d : List Char) :
    pySplit sep (removeSegs sep cs d) =
      if (pySplit sep cs).filter (fun p => p ≠ d) = [] then [[]]
      else (pySplit sep cs).filter (fun p => p ≠ d) := by
  unfold removeSegs
  by_cases hf : (pySplit sep cs).filter (fun p => p ≠ d) = []
  · rw [hf]
    simp [pyJoin, pySplit]
  · rw [if_neg hf]
    exact pySplit_pyJoin sep _ hf
      (fun s hs => sep_not_mem_pySplit sep cs s (List.mem_of_mem_filter hs))

theorem not_mem_pySplit_removeSegs (sep : Char) (cs d : List Char) (hd : d ≠ []) :
    d ∉ pySplit sep (removeSegs sep cs d) := by
  rw [pySplit_removeSegs]
  split
  · intro hmem
    rcases List.mem_cons.mp hmem with e | e
    · exact hd e
    · simp at e
  · intro hmem
    have hp := List.of_mem_filter hmem
    simp at hp

theorem removeSegs_idem (sep : Char) (cs d : List Char) :
    removeSegs sep (removeSegs sep cs d) d = removeSegs sep cs d := by
  have hstep : removeSegs sep (removeSegs sep cs d) d =
      pyJoin sep ((pySplit sep (removeSegs sep cs d)).filter (fun p => p ≠ d)) := rfl
  rw [hstep, pySplit_removeSegs]
  by_cases hf : (pySplit sep cs).filter (fun p => p ≠ d) = []
  · rw [if_pos hf]
    show pyJoin sep (List.filter (fun p => decide (p ≠ d)) [[]]) = removeSegs sep cs d
    unfold removeSegs
    rw [hf]
    by_cases hd : ([] : List Char) = d
    · simp [List.filter, hd, pyJoin]
    · simp [List.filter, hd, pyJoin]
  · rw [if_neg hf]
    have hagain : List.filter (fun p => p ≠ d) ((pySplit sep cs).filter (fun p => p ≠ d)) =
        (pySplit sep cs).filter (fun p => p ≠ d) := by
      apply List.filter_eq_self.mpr
      intro a ha
      exact (List.mem_filter.mp ha).2
    rw [hagain]
    rfl

theorem pyJoin_append_single (sep : Char) (x : List Char) :
    ∀ l : List (List Char), l ≠ [] →
      pyJoin sep (l ++ [x]) = pyJoin sep l ++ sep :: x := by
  intro l
  induction l with
  | nil => intro h; exact absurd rfl h
  | cons s ss ih =>
    intro _
    cases ss with
    | nil => simp [pyJoin]
    | cons t ts =>
      have h1 : pyJoin sep ((s :: t :: ts) ++ [x]) =
          s ++ sep :: pyJoin sep ((t :: ts) ++ [x]) := rfl
      rw [h1, ih (by simp)]
      simp [pyJoin]

theorem pySplit_append_sepFree (sep : Char) (cur d : List Char) (hd : sep ∉ d) :
    pySplit sep (cur ++ sep :: d) = pySplit sep cur ++ [d] := by
  have h1 : cur ++ sep :: d = pyJoin sep (pySplit sep cur ++ [d]) := by
    rw [pyJoin_append_single sep d _ (pySplit_ne_nil sep cur), pyJoin_pySplit]
  rw [h1, pySplit_pyJoin]
  · simp
  · intro s hs
    rcases List.mem_append.mp hs with h | h
    · exact sep_not_mem_pySplit sep cur s h
    · rw [List.mem_singleton.mp h]
      exact hd

/-! ## String-level bridges -/

theorem str_data_inj {s t : String} (h : s.data = t.data) : s = t := by
  cases s; cases t; exact congrArg String.mk h

theorem removeFromPathValue_data (cur dir : String) :
    (removeFromPathValue cur dir).data = removeSegs ';' cur.data dir.data := rfl

theorem mem_pathSegments {x s : String} :
    x ∈ pathSegments s ↔ x.data ∈ pySplit ';' s.data := by
  unfold pathSegments
  constructor
  · intro h
    rcases List.mem_map.mp h with ⟨l, hl, he⟩
    rw [← he]
    exact hl
  · intro h
    exact List.mem_map.mpr ⟨x.data, h, by cases x; rfl⟩

theorem removeFromPathValue_not_mem (s dir : String) (h : dir ∉ pathSegments s) :
    removeFromPathValue s dir = s := by
  apply str_data_inj
  rw [removeFromPathValue_data]
  exact removeSegs_not_mem ';' s.data dir.data (fun hm => h (mem_pathSegments.mpr hm))

theorem removeFromPathValue_idem (s dir : String) :
    removeFromPathValue (removeFromPathValue s dir) dir = removeFromPathValue s dir := by
  apply str_data_inj
  show removeSegs ';' (removeFromPathValue s dir).data dir.data = removeSegs ';' s.data dir.data
  rw [removeFromPathValue_data]
  exact removeSegs_idem ';' s.data dir.data

theorem not_mem_pathSegments_removeFromPathValue (s dir : String) (hd : dir ≠ "") :
    dir ∉ pathSegments (removeFromPathValue s dir) := by
  intro h
  have h2 := mem_pathSegments.mp h
  rw [removeFromPathValue_data] at h2
  have hne : dir.data ≠ [] := by
    intro e
    exact hd (@str_data_inj dir "" e)
  exact not_mem_pySplit_removeSegs ';' s.data dir.data hne h2

/-! ## World-model lemmas -/

theorem findEntry_cons (k1 : String × String) (v : FileData)
    (rest : List ((String × String) × FileData)) (key : String × String) :
    findEntry ((k1, v) :: rest) key =
      if k1 = key then some v else findEntry rest key := rfl

theorem eraseEntry_cons (k1 : String × String) (v : FileData)
    (rest : List ((String × String) × FileData)) (key : String × String) :
    eraseEntry ((k1, v) :: rest) key =
      if k1 = key then eraseEntry rest key else (k1, v) :: eraseEntry rest key := rfl

theorem findEntry_eraseEntry_self (l : List ((String × String) × FileData))
    (k : String × String) : findEntry (eraseEntry l k) k = none := by
  induction l with
  | nil => rfl
  | cons e rest ih =>
    obtain ⟨k1, v⟩ := e
    rw [eraseEntry_cons]
    by_cases h : k1 = k
    · rw [if_pos h]
      exact ih
    · rw [if_neg h, findEntry_cons, if_neg h]
      exact ih

theorem findEntry_eraseEntry_ne (l : List ((String × String) × FileData))
    (k k' : String × String) (h : k' ≠ k) :
    findEntry (eraseEntry l k) k' = findEntry l k' := by
  induction l with
  | nil => rfl
  | cons e rest ih =>
    obtain ⟨k1, v⟩ := e
    rw [eraseEntry_cons, findEntry_cons]
    by_cases h1 : k1 = k
    · have hne : k1 ≠ k' := fun e1 => h (e1.symm.trans h1)
      rw [if_pos h1, if_neg hne]
      exact ih
    · rw [if_neg h1, findEntry_cons]
      by_cases h2 : k1 = k'
      · rw [if_pos h2, if_pos h2]
      · rw [if_neg h2, if_neg h2]
        exact ih

theorem findEntry_mem {l : List ((String × String) × FileData)}
    {k : String × String} {v : FileData} (h : findEntry l k = some v) : (k, v) ∈ l := by
  induction l with
  | nil => simp [findEntry] at h
  | cons e rest ih =>
    obtain ⟨k1, v1⟩ := e
    unfold findEntry at h
    by_cases h1 : k1 = k
    · rw [if_pos h1] at h
      injection h with hv
      subst hv
      subst h1
      exact List.mem_cons_self _ _
    · rw [if_neg h1] at h
      exact List.mem_cons_of_mem _ (ih h)

theorem lookupFile_writeFile_self (w : World) (d f : String) (v : FileData) :
    lookupFile (writeFile w d f v) d f = some v := by
  show findEntry (((d, f), v) :: eraseEntry w.files (d, f)) (d, f) = some v
  rw [findEntry_cons, if_pos rfl]

theorem lookupFile_writeFile_ne (w : World) (d f d' f' : String) (v : FileData)
    (h : (d', f') ≠ (d, f)) :
    lookupFile (writeFile w d f v) d' f' = lookupFile w d' f' := by
  show findEntry (((d, f), v) :: eraseEntry w.files (d, f)) (d', f') =
    findEntry w.files (d', f')
  rw [findEntry_cons, if_neg (fun e => h e.symm)]
  exact findEntry_eraseEntry_ne _ _ _ h

theorem lookupFile_deleteFile (w : World) (d f d' f' : String) :
    lookupFile (deleteFile w d f) d' f' =
      if (d', f') = (d, f) then none else lookupFile w d' f' := by
  by_cases h : (d', f') = (d, f)
  · rw [if_pos h]
    show findEntry (eraseEntry w.files (d, f)) (d', f') = none
    rw [h]
    exact findEntry_eraseEntry_self _ _
  · rw [if_neg h]
    exact findEntry_eraseEntry_ne _ _ _ h

theorem lookupFile_deleteFiles (w : World) (d : String) (l : List String)
    (d' f' : String) :
    lookupFile (deleteFiles w d l) d' f' =
      if d' = d ∧ f' ∈ l then none else lookupFile w d' f' := by
  induction l generalizing w with
  | nil => simp [deleteFiles]
  | cons g gs ih =>
    show lookupFile (deleteFiles (deleteFile w d g) d gs) d' f' = _
    rw [ih, lookupFile_deleteFile]
    by_cases hd : d' = d
    · subst hd
      by_cases hg : f' = g
      · subst hg
        simp
      · by_cases hgs : f' ∈ gs <;>
          simp [hgs, hg, List.mem_cons, Prod.ext_iff]
    · simp [hd, Prod.ext_iff]

theorem dirEmpty_false_of_fileExists (w : World) (d f : String)
    (h : fileExists w d f = true) : dirEmpty w d = false := by
  unfold fileExists lookupFile at h
  cases hf : findEntry w.files (d, f) with
  | none =>
    rw [hf] at h
    simp at h
  | some v =>
    have hmem := findEntry_mem hf
    cases hdm : dirEmpty w d with
    | false => rfl
    | true =>
      have hall := List.all_eq_true.mp hdm _ hmem
      simp at hall

/-! ### Field-preservation facts -/

theorem writeFile_fields (w : World) (d f : String) (v : FileData) :
    (writeFile w d f v).dirs = w.dirs ∧ (writeFile w d f v).pathValue = w.pathValue ∧
    (writeFile w d f v).shortcuts = w.shortcuts ∧
    (writeFile w d f v).adminProbe = w.adminProbe :=
  ⟨rfl, rfl, rfl, rfl⟩

theorem deleteFiles_fields (w : World) (d : String) (l : List String) :
    (deleteFiles w d l).dirs = w.dirs ∧ (deleteFiles w d l).pathValue = w.pathValue ∧
    (deleteFiles w d l).shortcuts = w.shortcuts ∧
    (deleteFiles w d l).adminProbe = w.adminProbe := by
  induction l generalizing w with
  | nil => exact ⟨rfl, rfl, rfl, rfl⟩
  | cons g gs ih => exact ih (deleteFile w d g)

theorem mkdir_fields (w : World) (d : String) :
    (mkdir w d).files = w.files ∧ (mkdir w d).pathValue = w.pathValue ∧
    (mkdir w d).shortcuts = w.shortcuts ∧ (mkdir w d).adminProbe = w.adminProbe := by
  unfold mkdir
  split <;> exact ⟨rfl, rfl, rfl, rfl⟩

theorem mem_mkdir_dirs (w : World) (d : String) : d ∈ (mkdir w d).dirs := by
  unfold mkdir
  split
  · assumption
  · exact List.mem_cons_self _ _

theorem rmdir_fields (w : World) (d : String) :
    (rmdir w d).files = w.files ∧ (rmdir w d).pathValue = w.pathValue ∧
    (rmdir w d).shortcuts = w.shortcuts ∧ (rmdir w d).adminProbe = w.adminProbe :=
  ⟨rfl, rfl, rfl, rfl⟩

theorem extractAll_fields (renv : ResourceEnv) (d : String) (l : List String) (w : World) :
    (extractAll renv d l w).1.dirs = w.dirs ∧
    (extractAll renv d l w).1.pathValue = w.pathValue ∧
    (extractAll renv d l w).1.shortcuts = w.shortcuts ∧
    (extractAll renv d l w).1.adminProbe = w.adminProbe := by
  induction l generalizing w with
  | nil => exact ⟨rfl, rfl, rfl, rfl⟩
  | cons f fs ih =>
    have hshape : extractAll renv d (f :: fs) w =
        (match extractEmbeddedFile renv f with
          | none => (w, false)
          | some data => extractAll renv d fs (writeFile w d f (.content data))) := rfl
    rw [hshape]
    cases extractEmbeddedFile renv f with
    | none => exact ⟨rfl, rfl, rfl, rfl⟩
    | some data => exact ih (writeFile w d f (.content data))

theorem fileExists_writeFile_of_exists (w : World) (d f d' f' : String) (v : FileData)
    (h : fileExists w d' f' = true) : fileExists (writeFile w d f v) d' f' = true := by
  by_cases he : (d', f') = (d, f)
  · have h1 : d' = d := congrArg Prod.fst he
    have h2 : f' = f := congrArg Prod.snd he
    subst h1
    subst h2
    unfold fileExists
    rw [lookupFile_writeFile_self]
    rfl
  · unfold fileExists
    rw [lookupFile_writeFile_ne _ _ _ _ _ _ he]
    exact h

theorem extractAll_preserves (renv : ResourceEnv) (d : String) (l : List String)
    (w : World) (d' f' : String) (h : fileExists w d' f' = true) :
    fileExists (extractAll renv d l w).1 d' f' = true := by
  induction l generalizing w with
  | nil => exact h
  | cons g gs ih =>
    have hshape : extractAll renv d (g :: gs) w =
        (match extractEmbeddedFile renv g with
          | none => (w, false)
          | some data => extractAll renv d gs (writeFile w d g (.content data))) := rfl
    rw [hshape]
    cases hx : extractEmbeddedFile renv g with
    | none => exact h
    | some data =>
      exact ih (writeFile w d g (.content data))
        (fileExists_writeFile_of_exists _ _ _ _ _ _ h)

theorem extractAll_writes (renv : ResourceEnv) (d : String) (l : List String) (w : World)
    (hok : (extractAll renv d l w).2 = true) :
    ∀ f ∈ l, fileExists (extractAll renv d l w).1 d f = true := by
  induction l generalizing w with
  | nil => intro f hf; simp at hf
  | cons g gs ih =>
    intro f hf
    have hshape : extractAll renv d (g :: gs) w =
        (match extractEmbeddedFile renv g with
          | none => (w, false)
          | some data => extractAll renv d gs (writeFile w d g (.content data))) := rfl
    rw [hshape] at hok ⊢
    revert hok
    cases hx : extractEmbeddedFile renv g with
    | none =>
      intro hok
      simp at hok
    | some data =>
      intro hok
      change (extractAll renv d gs (writeFile w d g (.content data))).2 = true at hok
      rcases List.mem_cons.mp hf with rfl | hf2
      · have hbase : fileExists (writeFile w d f (.content data)) d f = true := by
          unfold fileExists
          rw [lookupFile_writeFile_self]
          rfl
        exact extractAll_preserves renv d gs _ d f hbase
      · exact ih (writeFile w d g (.content data)) hok f hf2

/-! ## Orchestrator lemmas -/

theorem install_not_admin (renv : ResourceEnv) (args : InstallArgs) (w : World)
    (h : w.isAdmin = false) : install renv args w = (w, false) := by
  unfold install
  rw [if_pos h]

theorem uninstall_not_admin (args : UninstallArgs) (cd : String) (w : World)
    (h : w.isAdmin = false) : uninstall args cd w = (w, false) := by
  unfold uninstall
  rw [if_pos h]

theorem uninstall_declined (args : UninstallArgs) (cd : String) (w : World)
    (hs : args.silent = false) (hc : args.confirm = false) :
    uninstall args cd w = (w, false) := by
  unfold uninstall
  by_cases hA : w.isAdmin = false
  · rw [if_pos hA]
  · rw [if_neg hA]
    cases resolveDir args cd w with
    | none => rfl
    | some d =>
      show (if args.silent = false ∧ args.confirm = false then (w, false)
        else (uninstallCore w d ((resolveTarget args cd w).2.getD defaultFilesToRemove),
          true)) = (w, false)
      rw [if_pos ⟨hs, hc⟩]

theorem install_success_conds (renv : ResourceEnv) (args : InstallArgs) (w : World)
    (h : (install renv args w).2 = true) :
    w.isAdmin = true ∧
    (extractAll renv (args.installPath.getD defaultInstallPath) filesToExtract
      (mkdir w (args.installPath.getD defaultInstallPath))).2 = true := by
  unfold install at h
  by_cases hA : w.isAdmin = false
  · rw [if_pos hA] at h
    simp at h
  · rw [if_neg hA] at h
    by_cases hE : (extractAll renv (args.installPath.getD defaultInstallPath) filesToExtract
        (mkdir w (args.installPath.getD defaultInstallPath))).2 = false
    · rw [if_pos hE] at h
      simp at h
    · refine ⟨?_, ?_⟩
      · cases hb : w.isAdmin with
        | false => exact absurd hb hA
        | true => rfl
      · cases he : (extractAll renv (args.installPath.getD defaultInstallPath) filesToExtract
            (mkdir w (args.installPath.getD defaultInstallPath))).2 with
        | false => exact absurd he hE
        | true => rfl

theorem install_success_eq (renv : ResourceEnv) (args : InstallArgs) (w : World)
    (hA : w.isAdmin = true)
    (hE : (extractAll renv (args.installPath.getD defaultInstallPath) filesToExtract
      (mkdir w (args.installPath.getD defaultInstallPath))).2 = true) :
    install renv args w =
      (installCore args
        (extractAll renv (args.installPath.getD defaultInstallPath) filesToExtract
          (mkdir w (args.installPath.getD defaultInstallPath))).1
        (args.installPath.getD defaultInstallPath), true) := by
  unfold install
  rw [if_neg (by rw [hA]; simp), if_neg (by rw [hE]; simp)]

theorem installPhase1_fields (args : InstallArgs) (w : World) (d : String) :
    (installPhase1 args w d).dirs = w.dirs ∧ (installPhase1 args w d).files = w.files ∧
    (installPhase1 args w d).shortcuts = w.shortcuts ∧
    (installPhase1 args w d).adminProbe = w.adminProbe := by
  unfold installPhase1
  split <;> exact ⟨rfl, rfl, rfl, rfl⟩

theorem installCore_ledger (args : InstallArgs) (w : World) (d : String) :
    lookupFile (installCore args w d) d installInfoFile =
      some (.ledgerFile d installedFilesList) :=
  lookupFile_writeFile_self _ _ _ _

theorem installCore_dirs (args : InstallArgs) (w : World) (d : String) :
    (installCore args w d).dirs = w.dirs := by
  show (installPhase2 (installPhase1 args w d)).dirs = w.dirs
  show (installPhase1 args w d).dirs = w.dirs
  exact (installPhase1_fields args w d).1

theorem installCore_adminProbe (args : InstallArgs) (w : World) (d : String) :
    (installCore args w d).adminProbe = w.adminProbe := by
  show (installPhase2 (installPhase1 args w d)).adminProbe = w.adminProbe
  show (installPhase1 args w d).adminProbe = w.adminProbe
  exact (installPhase1_fields args w d).2.2.2

theorem installCore_keeps_file (args : InstallArgs) (w : World) (d d' f' : String)
    (h : fileExists w d' f' = true) (hne : (d', f') ≠ (d, installInfoFile)) :
    fileExists (installCore args w d) d' f' = true := by
  unfold fileExists
  unfold installCore
  rw [lookupFile_writeFile_ne _ _ _ _ _ _ hne]
  show (findEntry (installPhase2 (installPhase1 args w d)).files (d', f')).isSome = true
  rw [show (installPhase2 (installPhase1 args w d)).files = w.files from
    (installPhase1_fields args w d).2.1]
  exact h

theorem uninstallCore_lookup (w : World) (d : String) (l : List String) (d' f' : String) :
    lookupFile (uninstallCore w d l) d' f' =
      if d' = d ∧ f' ∈ l then none else lookupFile w d' f' := by
  have hfiles : (uninstallCore w d l).files =
      (deleteFiles (uninstallPhase2 (uninstallPhase1 w d)) d l).files := by
    unfold uninstallCore
    split
    · rfl
    · rfl
  show findEntry (uninstallCore w d l).files (d', f') = _
  rw [hfiles]
  exact lookupFile_deleteFiles (uninstallPhase2 (uninstallPhase1 w d)) d l d' f'

theorem uninstallCore_pathValue (w : World) (d : String) (l : List String) :
    (uninstallCore w d l).pathValue = removeFromPathValue w.pathValue d := by
  unfold uninstallCore
  split
  · show (deleteFiles (uninstallPhase2 (uninstallPhase1 w d)) d l).pathValue = _
    rw [(deleteFiles_fields _ _ _).2.1]
    rfl
  · rw [(deleteFiles_fields _ _ _).2.1]
    rfl

theorem uninstallCore_adminProbe (w : World) (d : String) (l : List String) :
    (uninstallCore w d l).adminProbe = w.adminProbe := by
  unfold uninstallCore
  split
  · show (deleteFiles (uninstallPhase2 (uninstallPhase1 w d)) d l).adminProbe = _
    rw [(deleteFiles_fields _ _ _).2.2.2]
    rfl
  · rw [(deleteFiles_fields _ _ _).2.2.2]
    rfl

theorem uninstallCore_dir_iff (w : World) (d : String) (l : List String)
    (hd : d ∈ w.dirs) :
    dirExists (uninstallCore w d l) d = true ↔ dirEmpty (uninstallCore w d l) d = false := by
  unfold uninstallCore
  by_cases hemp :
      dirEmpty (deleteFiles (uninstallPhase2 (uninstallPhase1 w d)) d l) d = true
  · rw [if_pos hemp]
    constructor
    · intro hex
      exfalso
      unfold dirExists rmdir at hex
      simp at hex
    · intro hne
      exfalso
      have h2 : dirEmpty
          (rmdir (deleteFiles (uninstallPhase2 (uninstallPhase1 w d)) d l) d) d = true := hemp
      rw [h2] at hne
      exact absurd hne (by simp)
  · rw [if_neg hemp]
    have hex : dirExists (deleteFiles (uninstallPhase2 (uninstallPhase1 w d)) d l) d = true := by
      unfold dirExists
      rw [(deleteFiles_fields _ _ _).1]
      show decide (d ∈ w.dirs) = true
      simpa using hd
    constructor
    · intro _
      cases hb : dirEmpty (deleteFiles (uninstallPhase2 (uninstallPhase1 w d)) d l) d with
      | false => rfl
      | true => exact absurd hb hemp
    · intro _
      exact hex

theorem uninstallCore_keeps_file (w : World) (d : String) (l : List String) (g : String)
    (hg : fileExists w d g = true) (hgl : g ∉ l) :
    fileExists (uninstallCore w d l) d g = true ∧
    dirExists (uninstallCore w d l) d = dirExists w d := by
  have hfe : fileExists (deleteFiles (uninstallPhase2 (uninstallPhase1 w d)) d l) d g = true := by
    unfold fileExists
    rw [lookupFile_deleteFiles, if_neg (fun hc => hgl hc.2)]
    exact hg
  have hemp : dirEmpty (deleteFiles (uninstallPhase2 (uninstallPhase1 w d)) d l) d = false :=
    dirEmpty_false_of_fileExists _ _ _ hfe
  unfold uninstallCore
  rw [if_neg (by rw [hemp]; simp)]
  refine ⟨hfe, ?_⟩
  unfold dirExists
  rw [(deleteFiles_fields _ _ _).1]
  rfl

theorem findInstallation_ledger (w : World) (cd p : String) (fl : List String)
    (h : lookupFile w cd installInfoFile = some (.ledgerFile p fl)) :
    findInstallation w cd = (some p, some fl) := by
  unfold findInstallation
  rw [h]

theorem uninstall_resolved (args : UninstallArgs) (cd : String) (w : World) (d : String)
    (fl : Option (List String))
    (hA : w.isAdmin = true)
    (hfound : resolveTarget args cd w = (some d, fl))
    (hdir : dirExists w d = true)
    (hgo : ¬(args.silent = false ∧ args.confirm = false)) :
    uninstall args cd w = (uninstallCore w d (fl.getD defaultFilesToRemove), true) := by
  unfold uninstall
  rw [if_neg (by rw [hA]; simp)]
  have hres : resolveDir args cd w = some d := by
    unfold resolveDir
    rw [hfound]
    show (if dirExists w d = true then some d else resolveCustom args w) = some d
    rw [if_pos hdir]
  rw [hres]
  show (if args.silent = false ∧ args.confirm = false then (w, false)
    else (uninstallCore w d ((resolveTarget args cd w).2.getD defaultFilesToRemove), true)) = _
  rw [if_neg hgo, hfound]

theorem extractEmbeddedFile_eq (env : ResourceEnv) (name : String) :
    extractEmbeddedFile env name =
      (match bundleFind env name with
       | some data => some data
       | none => extractFallback env name) := by
  unfold extractEmbeddedFile bundleFind
  cases env.bundle with
  | none => rfl
  | some b => cases assocFind b name <;> rfl

/-! ## Claims -/

/-- C4: `remove_entry(dir)` writes back exactly the current value split on
the delimiter with every segment string-equal to `dir` dropped and the
remaining segments rejoined in their original relative order (the
resulting value re-splits to exactly the filtered segment list, which
preserves unrelated entries, duplicates and empty segments); on the
concrete value `"C:\A;C:\B;C:\Target"`, removing `"C:\Target"` yields
`"C:\A;C:\B"` with no trailing delimiter and no reordering. -/
theorem c4_remove_entry_rewrite :
    (∀ s dir : String,
      (removeFromPath s dir).value =
        ⟨pyJoin ';' ((pySplit ';' s.data).filter (fun p => p ≠ dir.data))⟩ ∧
      pySplit ';' (removeFromPath s dir).value.data =
        (if (pySplit ';' s.data).filter (fun p => p ≠ dir.data) = [] then [[]]
         else (pySplit ';' s.data).filter (fun p => p ≠ dir.data)) ∧
      (removeFromPath s dir).ok = true) ∧
    (removeFromPath "C:\\A;C:\\B;C:\\Target" "C:\\Target").value = "C:\\A;C:\\B" := by
  refine ⟨fun s dir => ⟨rfl, ?_, rfl⟩, by decide⟩
  exact pySplit_removeSegs ';' s.data dir.data

/-- C10: when no delimiter-separated segment of the current value equals
`dir`, `remove_entry(dir)` writes back exactly the current value, and
`remove_entry` is idempotent on the stored value. -/
theorem c10_remove_idempotent : ∀ s dir : String,
    (dir ∉ pathSegments s → (removeFromPath s dir).value = s) ∧
    (removeFromPath (removeFromPath s dir).value dir).value =
      (removeFromPath s dir).value := fun s dir =>
  ⟨removeFromPathValue_not_mem s dir, removeFromPathValue_idem s dir⟩

/-- C10 witness: removing `"C:\X"`, which is no segment of
`"C:\A;C:\B"`, leaves the value unchanged. -/
theorem c10_witness :
    (removeFromPath "C:\\A;C:\\B" "C:\\X").value = "C:\\A;C:\\B" :=
  (c10_remove_idempotent "C:\\A;C:\\B" "C:\\X").1 (by decide)

/-- C2 counterexample: with prior value `"C:\AB"`, adding `"C:\A"` — a
proper substring of the single (different) entry — returns true but the
directory does not appear as a delimiter-separated segment of the
resulting value, refuting the claim that a true return implies segment
presence even in the proper-substring case. -/
theorem c2_counterexample :
    (addToPath "C:\\AB" "C:\\A").ok = true ∧
    (addToPath "C:\\AB" "C:\\A").value = "C:\\AB" ∧
    "C:\\A" ∉ pathSegments (addToPath "C:\\AB" "C:\\A").value := by
  decide

/-- C2 amended: `add_entry` always returns true; when `dir` contains no
delimiter and is not a substring of the prior value, `dir` is appended and
appears as the final delimiter-separated segment of the result (all prior
segments preserved in order); when `dir` already occurs as a substring of
the prior value, the value is left unchanged — so a true return does not
guarantee a segment occurrence in that case. -/
theorem c2_add_entry_amended (cur dir : String) (hsep : ';' ∉ dir.data)
    (hsub : strOccursIn dir cur = false) :
    (addToPath cur dir).ok = true ∧
    pathSegments (addToPath cur dir).value = pathSegments cur ++ [dir] := by
  have hdata : (cur ++ ";" ++ dir).data = cur.data ++ ';' :: dir.data := by
    simp [String.data_append]
  constructor
  · unfold addToPath
    split <;> rfl
  · unfold addToPath
    rw [if_pos hsub]
    show pathSegments (cur ++ ";" ++ dir) = _
    unfold pathSegments
    rw [hdata, pySplit_append_sepFree ';' cur.data dir.data hsep, List.map_append]
    have hlast : ([dir.data].map (fun l => (⟨l⟩ : String))) = [dir] := by
      cases dir
      rfl
    rw [hlast]

/-- C2 amended witness: adding `"C:\Y"` to `"C:\X"` appends it as the
final segment. -/
theorem c2_amended_witness :
    (addToPath "C:\\X" "C:\\Y").ok = true ∧
    pathSegments (addToPath "C:\\X" "C:\\Y").value = pathSegments "C:\\X" ++ ["C:\\Y"] :=
  c2_add_entry_amended "C:\\X" "C:\\Y" (by decide) (by decide)

/-- C5 counterexample: the installer's `add_to_path` does broadcast (a
non-empty broadcast list) but not through the bounded-timeout primitive
with a ~3000 ms cap — it calls plain `SendMessageW` — refuting the claim
that both mutators use the bounded-timeout broadcast. -/
theorem c5_counterexample :
    (addToPath "C:\\X" "C:\\Y").broadcasts ≠ [] ∧
    (addToPath "C:\\X" "C:\\Y").broadcasts.all boundedBy3000 = false := by
  decide

/-- C5 amended: only the uninstaller's `remove_entry` broadcasts through
the bounded-timeout primitive (`SendMessageTimeoutW` with
`SMTO_ABORTIFHUNG` and a 3000 ms cap), and a broadcast timeout does not
affect its successful (true) return; the installer's `add_entry`
broadcasts, when it broadcasts at all, through the unbounded
`SendMessageW`. -/
theorem c5_broadcast_amended (cur dir : String) :
    (removeFromPath cur dir).broadcasts = [BroadcastCall.sendMessageTimeout 0x0002 3000] ∧
    boundedBy3000 (BroadcastCall.sendMessageTimeout 0x0002 3000) = true ∧
    (removeFromPath cur dir).ok = true ∧
    (addToPath cur dir).broadcasts.all (fun b => b = BroadcastCall.sendMessage) = true := by
  refine ⟨rfl, by decide, rfl, ?_⟩
  unfold addToPath
  split <;> rfl

/-- C6: whenever the elevated-rights check is false — including the
probe-error case, which `is_admin` maps to false — both `install` and
`uninstall` return failure immediately with the world (filesystem, search
path, shortcuts) completely unchanged. -/
theorem c6_admin_gate (renv : ResourceEnv) (args : InstallArgs) (uargs : UninstallArgs)
    (cd : String) (w : World) (h : w.isAdmin = false) :
    isAdminResult AdminProbe.err = false ∧
    install renv args w = (w, false) ∧
    uninstall uargs cd w = (w, false) :=
  ⟨rfl, install_not_admin renv args w h, uninstall_not_admin uargs cd w h⟩

/-- C6 witness: on a world whose admin probe errors, install and
uninstall fail without side effects. -/
theorem c6_witness :
    isAdminResult AdminProbe.err = false ∧
    install renvDemo ⟨some "C:\\RP", false, true⟩ ⟨AdminProbe.err, [], [], "C:\\X", []⟩ =
      (⟨AdminProbe.err, [], [], "C:\\X", []⟩, false) ∧
    uninstall ⟨none, true, true, none⟩ "Z" ⟨AdminProbe.err, [], [], "C:\\X", []⟩ =
      (⟨AdminProbe.err, [], [], "C:\\X", []⟩, false) :=
  c6_admin_gate renvDemo ⟨some "C:\\RP", false, true⟩ ⟨none, true, true, none⟩ "Z"
    ⟨AdminProbe.err, [], [], "C:\\X", []⟩ rfl

/-- C8: in any non-silent uninstall run, when the confirmation prompt is
declined the run returns false with the world completely unchanged — no
search-path change, no shortcut removal, no file or directory deletion
(this holds in particular for every run that resolved an installation
directory). -/
theorem c8_confirm_decline (args : UninstallArgs) (cd : String) (w : World)
    (hs : args.silent = false) (hc : args.confirm = false) :
    uninstall args cd w = (w, false) :=
  uninstall_declined args cd w hs hc

/-- C8 witness: a non-silent run against a resolvable installation at
`C:\RP`, declined at the prompt, changes nothing. -/
theorem c8_witness :
    uninstall ⟨none, false, false, none⟩ "C:\\RP" worldCorrupt = (worldCorrupt, false) :=
  c8_confirm_decline ⟨none, false, false, none⟩ "C:\\RP" worldCorrupt rfl rfl

/-- C3 counterexample: for `ruping.cmd` — absent from the (present but
empty) bundle, existing as a local candidate file with contents
`"LOCAL"`, and carrying a non-empty embedded-table entry — `locate`
returns the embedded content, not the local candidate's contents,
refuting the claimed local-before-embedded priority. -/
theorem c3_counterexample :
    bundleFind ⟨some [], [("ruping.cmd", "LOCAL")]⟩ "ruping.cmd" = none ∧
    firstExisting [("ruping.cmd", "LOCAL")] (localCandidates "ruping.cmd") = some "LOCAL" ∧
    assocFind EMBEDDED_FILES "ruping.cmd" = some "@echo off\n\"%~dp0ruping.exe\" %*\n" ∧
    "@echo off\n\"%~dp0ruping.exe\" %*\n" ≠ "" ∧
    extractEmbeddedFile ⟨some [], [("ruping.cmd", "LOCAL")]⟩ "ruping.cmd" =
      some "@echo off\n\"%~dp0ruping.exe\" %*\n" ∧
    extractEmbeddedFile ⟨some [], [("ruping.cmd", "LOCAL")]⟩ "ruping.cmd" ≠ some "LOCAL" := by
  decide

/-- C3 amended: `locate` tries the self-contained bundle first and
returns its contents on a hit; on a bundle miss it consults the embedded
table whenever the name is one of its keys — returning the content if
non-empty and failing if empty, never consulting local candidates — and
only when the name is not a key of the embedded table does it try the
well-known local filesystem candidates, returning the first existing
one's contents; it fails when all applicable strategies miss. -/
theorem c3_locate_order_amended (env : ResourceEnv) (name : String) :
    (∀ data, bundleFind env name = some data → extractEmbeddedFile env name = some data) ∧
    (bundleFind env name = none →
      ∀ c, assocFind EMBEDDED_FILES name = some c →
        extractEmbeddedFile env name = (if c = "" then none else some c)) ∧
    (bundleFind env name = none → assocFind EMBEDDED_FILES name = none →
      extractEmbeddedFile env name = firstExisting env.localFS (localCandidates name)) := by
  refine ⟨?_, ?_, ?_⟩
  · intro data hb
    rw [extractEmbeddedFile_eq, hb]
  · intro hb c hc
    rw [extractEmbeddedFile_eq, hb]
    show extractFallback env name = _
    unfold extractFallback
    rw [hc]
  · intro hb hc
    rw [extractEmbeddedFile_eq, hb]
    show extractFallback env name = _
    unfold extractFallback
    rw [hc]

/-- C3 amended witness: a bundle hit on `ruping.exe` returns the bundled
bytes. -/
theorem c3_amended_witness :
    extractEmbeddedFile ⟨some [("ruping.exe", "BIN")], []⟩ "ruping.exe" = some "BIN" :=
  (c3_locate_order_amended ⟨some [("ruping.exe", "BIN")], []⟩ "ruping.exe").1 "BIN" (by decide)

/-- C7: an uninstall run whose ledger file is present but unparseable
does not abort: `find_installation` falls through to the
current-directory heuristic, and once the directory containing the main
executable is resolved the run succeeds, deleting the files of the fixed
default list — which contains the main executable and every launcher
script — from that directory. -/
theorem c7_corrupt_ledger (w : World) (cd : String)
    (hA : w.isAdmin = true)
    (hcor : lookupFile w cd installInfoFile = some FileData.corruptLedger)
    (hexe : fileExists w cd "ruping.exe" = true)
    (hdir : dirExists w cd = true) :
    findInstallation w cd = (some cd, none) ∧
    ("ruping.exe" ∈ defaultFilesToRemove ∧ "ruping.cmd" ∈ defaultFilesToRemove ∧
      "rustping.cmd" ∈ defaultFilesToRemove ∧ "rping.cmd" ∈ defaultFilesToRemove) ∧
    (uninstall ⟨none, true, true, none⟩ cd w).2 = true ∧
    (∀ f ∈ defaultFilesToRemove,
      fileExists (uninstall ⟨none, true, true, none⟩ cd w).1 cd f = false) := by
  have hfind : findInstallation w cd = (some cd, none) := by
    unfold findInstallation
    rw [hcor]
    show (if fileExists w cd "ruping.exe" = true then (some cd, none) else _) = _
    rw [if_pos hexe]
  have hfound : resolveTarget ⟨none, true, true, none⟩ cd w = (some cd, none) := hfind
  have huni : uninstall ⟨none, true, true, none⟩ cd w =
      (uninstallCore w cd defaultFilesToRemove, true) :=
    uninstall_resolved _ cd w cd none hA hfound hdir (by decide)
  refine ⟨hfind, by decide, by rw [huni], ?_⟩
  intro f hf
  rw [huni]
  show fileExists (uninstallCore w cd defaultFilesToRemove) cd f = false
  unfold fileExists
  rw [uninstallCore_lookup, if_pos ⟨rfl, hf⟩]
  rfl

/-- C7 witness: a concrete installation at `C:\RP` with a corrupt ledger
is resolved heuristically and cleaned without erroring. -/
theorem c7_witness :
    findInstallation worldCorrupt "C:\\RP" = (some "C:\\RP", none) ∧
    ("ruping.exe" ∈ defaultFilesToRemove ∧ "ruping.cmd" ∈ defaultFilesToRemove ∧
      "rustping.cmd" ∈ defaultFilesToRemove ∧ "rping.cmd" ∈ defaultFilesToRemove) ∧
    (uninstall ⟨none, true, true, none⟩ "C:\\RP" worldCorrupt).2 = true ∧
    (∀ f ∈ defaultFilesToRemove,
      fileExists (uninstall ⟨none, true, true, none⟩ "C:\\RP" worldCorrupt).1 "C:\\RP" f
        = false) :=
  c7_corrupt_ledger worldCorrupt "C:\\RP" rfl (by decide) (by decide) (by decide)

/-- C9: a successful install writes the uninstaller under the name
`ruping-uninstaller.exe`, but the default deletion list used by an
uninstall that resolves the directory without a usable ledger contains
`uninstaller.py` and not `ruping-uninstaller.exe`; consequently such an
uninstall leaves the deployed uninstaller executable in place, the
directory stays non-empty, and the directory is kept. -/
theorem c9_uninstaller_survives (renv : ResourceEnv) (args : InstallArgs) (w0 : World)
    (cd : String) (hok : (install renv args w0).2 = true) :
    "uninstaller.py" ∈ defaultFilesToRemove ∧
    "ruping-uninstaller.exe" ∉ defaultFilesToRemove ∧
    fileExists
      (uninstall ⟨some (args.installPath.getD defaultInstallPath), true, true, none⟩ cd
        (install renv args w0).1).1
      (args.installPath.getD defaultInstallPath) "ruping-uninstaller.exe" = true ∧
    dirExists
      (uninstall ⟨some (args.installPath.getD defaultInstallPath), true, true, none⟩ cd
        (install renv args w0).1).1
      (args.installPath.getD defaultInstallPath) = true := by
  obtain ⟨hA, hE⟩ := install_success_conds renv args w0 hok
  have hw : install renv args w0 =
      (installCore args
        (extractAll renv (args.installPath.getD defaultInstallPath) filesToExtract
          (mkdir w0 (args.installPath.getD defaultInstallPath))).1
        (args.installPath.getD defaultInstallPath), true) :=
    install_success_eq renv args w0 hA hE
  rw [hw]
  set d := args.installPath.getD defaultInstallPath with hd
  set e1 := (extractAll renv d filesToExtract (mkdir w0 d)).1 with he1
  have hAdmin1 : (installCore args e1 d).isAdmin = true := by
    show isAdminResult (installCore args e1 d).adminProbe = true
    rw [installCore_adminProbe, (extractAll_fields renv d filesToExtract (mkdir w0 d)).2.2.2,
      (mkdir_fields w0 d).2.2.2]
    exact hA
  have hexe1 : fileExists e1 d "ruping-uninstaller.exe" = true :=
    extractAll_writes renv d filesToExtract (mkdir w0 d) hE "ruping-uninstaller.exe" (by decide)
  have hexe : fileExists (installCore args e1 d) d "ruping-uninstaller.exe" = true :=
    installCore_keeps_file args e1 d d "ruping-uninstaller.exe" hexe1
      (fun h => by
        have h2 : "ruping-uninstaller.exe" = installInfoFile := congrArg Prod.snd h
        exact absurd h2 (by decide))
  have hdir1 : dirExists (installCore args e1 d) d = true := by
    unfold dirExists
    rw [installCore_dirs, (extractAll_fields renv d filesToExtract (mkdir w0 d)).1]
    exact decide_eq_true (mem_mkdir_dirs w0 d)
  have hfound : resolveTarget ⟨some d, true, true, none⟩ cd (installCore args e1 d) =
      (some d, none) := rfl
  have huni := uninstall_resolved ⟨some d, true, true, none⟩ cd (installCore args e1 d) d
    none hAdmin1 hfound hdir1 (fun hcon => by
      have h2 : true = false := hcon.1
      exact Bool.noConfusion h2)
  rw [huni]
  obtain ⟨hkeep, hdirEq⟩ := uninstallCore_keeps_file (installCore args e1 d) d
    defaultFilesToRemove "ruping-uninstaller.exe" hexe (by decide)
  exact ⟨by decide, by decide, hkeep, hdirEq.trans hdir1⟩

/-- C9 witness: a concrete successful install into `C:\RP` followed by an
explicit-path uninstall leaves `ruping-uninstaller.exe` behind and keeps
the directory. -/
theorem c9_witness :
    "uninstaller.py" ∈ defaultFilesToRemove ∧
    "ruping-uninstaller.exe" ∉ defaultFilesToRemove ∧
    fileExists (uninstall ⟨some "C:\\RP", true, true, none⟩ "Z"
      (install renvDemo ⟨some "C:\\RP", false, true⟩ worldDemo).1).1 "C:\\RP"
      "ruping-uninstaller.exe" = true ∧
    dirExists (uninstall ⟨some "C:\\RP", true, true, none⟩ "Z"
      (install renvDemo ⟨some "C:\\RP", false, true⟩ worldDemo).1).1 "C:\\RP" = true :=
  c9_uninstaller_survives renvDemo ⟨some "C:\\RP", false, true⟩ worldDemo "Z" (by decide)

/-- C1 counterexample: a successful install into `C:\RP` followed by a
successful uninstall resolving the very same directory (here supplied
explicitly, so no ledger is consulted), with no intervening external
changes, leaves the product file `ruping-uninstaller.exe` in the
directory — refuting the claim that zero product files remain for every
argument set. -/
theorem c1_counterexample :
    (install renvDemo ⟨some "C:\\RP", false, true⟩ worldDemo).2 = true ∧
    (uninstall ⟨some "C:\\RP", true, true, none⟩ "Z"
      (install renvDemo ⟨some "C:\\RP", false, true⟩ worldDemo).1).2 = true ∧
    fileExists (uninstall ⟨some "C:\\RP", true, true, none⟩ "Z"
      (install renvDemo ⟨some "C:\\RP", false, true⟩ worldDemo).1).1 "C:\\RP"
      "ruping-uninstaller.exe" = true := by
  decide

/-- C1 amended: after a successful `install` into a non-empty directory
name `d`, an `uninstall` that resolves `d` through the ledger the install
wrote (running next to it, with no explicit path and no intervening
external changes) succeeds; it deletes every product file from `d`,
leaves zero search-path segments equal to `d`, and removes `d` itself if
and only if it is empty after the file deletions.  (As stated the claim
also covers uninstall runs that resolve `d` without reading the ledger;
there the uninstaller executable survives — see the counterexample.) -/
theorem c1_roundtrip_ledger (renv : ResourceEnv) (args : InstallArgs) (w0 : World)
    (hok : (install renv args w0).2 = true)
    (hdne : args.installPath.getD defaultInstallPath ≠ "") :
    findInstallation (install renv args w0).1 (args.installPath.getD defaultInstallPath) =
      (some (args.installPath.getD defaultInstallPath), some installedFilesList) ∧
    (uninstall ⟨none, true, true, none⟩ (args.installPath.getD defaultInstallPath)
      (install renv args w0).1).2 = true ∧
    (∀ f ∈ installedFilesList,
      fileExists (uninstall ⟨none, true, true, none⟩ (args.installPath.getD defaultInstallPath)
        (install renv args w0).1).1 (args.installPath.getD defaultInstallPath) f = false) ∧
    args.installPath.getD defaultInstallPath ∉ pathSegments
      (uninstall ⟨none, true, true, none⟩ (args.installPath.getD defaultInstallPath)
        (install renv args w0).1).1.pathValue ∧
    (dirExists (uninstall ⟨none, true, true, none⟩ (args.installPath.getD defaultInstallPath)
        (install renv args w0).1).1 (args.installPath.getD defaultInstallPath) = true ↔
      dirEmpty (uninstall ⟨none, true, true, none⟩ (args.installPath.getD defaultInstallPath)
        (install renv args w0).1).1 (args.installPath.getD defaultInstallPath) = false) := by
  obtain ⟨hA, hE⟩ := install_success_conds renv args w0 hok
  have hw : install renv args w0 =
      (installCore args
        (extractAll renv (args.installPath.getD defaultInstallPath) filesToExtract
          (mkdir w0 (args.installPath.getD defaultInstallPath))).1
        (args.installPath.getD defaultInstallPath), true) :=
    install_success_eq renv args w0 hA hE
  rw [hw]
  set d := args.installPath.getD defaultInstallPath with hd
  set e1 := (extractAll renv d filesToExtract (mkdir w0 d)).1 with he1
  have hled : lookupFile (installCore args e1 d) d installInfoFile =
      some (.ledgerFile d installedFilesList) := installCore_ledger args e1 d
  have hfind : findInstallation (installCore args e1 d) d =
      (some d, some installedFilesList) :=
    findInstallation_ledger _ d d installedFilesList hled
  have hAdmin1 : (installCore args e1 d).isAdmin = true := by
    show isAdminResult (installCore args e1 d).adminProbe = true
    rw [installCore_adminProbe, (extractAll_fields renv d filesToExtract (mkdir w0 d)).2.2.2,
      (mkdir_fields w0 d).2.2.2]
    exact hA
  have hdir1 : dirExists (installCore args e1 d) d = true := by
    unfold dirExists
    rw [installCore_dirs, (extractAll_fields renv d filesToExtract (mkdir w0 d)).1]
    exact decide_eq_true (mem_mkdir_dirs w0 d)
  have hfound : resolveTarget ⟨none, true, true, none⟩ d (installCore args e1 d) =
      (some d, some installedFilesList) := hfind
  have huni := uninstall_resolved ⟨none, true, true, none⟩ d (installCore args e1 d) d
    (some installedFilesList) hAdmin1 hfound hdir1 (by decide)
  rw [huni]
  refine ⟨hfind, rfl, ?_, ?_, ?_⟩
  · intro f hf
    show fileExists (uninstallCore (installCore args e1 d) d installedFilesList) d f = false
    unfold fileExists
    rw [uninstallCore_lookup, if_pos ⟨rfl, hf⟩]
    rfl
  · show d ∉ pathSegments
      (uninstallCore (installCore args e1 d) d installedFilesList).pathValue
    rw [uninstallCore_pathValue]
    exact not_mem_pathSegments_removeFromPathValue _ d hdne
  · have hmem : d ∈ (installCore args e1 d).dirs := by
      rw [installCore_dirs, (extractAll_fields renv d filesToExtract (mkdir w0 d)).1]
      exact mem_mkdir_dirs w0 d
    exact uninstallCore_dir_iff (installCore args e1 d) d installedFilesList hmem

/-- C1 amended witness: the concrete ledger-driven round trip at `C:\RP`
removes every product file, every matching search-path segment, and the
directory itself (it is empty afterwards). -/
theorem c1_witness :
    findInstallation (install renvDemo ⟨some "C:\\RP", false, true⟩ worldDemo).1 "C:\\RP" =
      (some "C:\\RP", some installedFilesList) ∧
    (uninstall ⟨none, true, true, none⟩ "C:\\RP"
      (install renvDemo ⟨some "C:\\RP", false, true⟩ worldDemo).1).2 = true ∧
    (∀ f ∈ installedFilesList,
      fileExists (uninstall ⟨none, true, true, none⟩ "C:\\RP"
        (install renvDemo ⟨some "C:\\RP", false, true⟩ worldDemo).1).1 "C:\\RP" f = false) ∧
    "C:\\RP" ∉ pathSegments (uninstall ⟨none, true, true, none⟩ "C:\\RP"
      (install renvDemo ⟨some "C:\\RP", false, true⟩ worldDemo).1).1.pathValue ∧
    (dirExists (uninstall ⟨none, true, true, none⟩ "C:\\RP"
        (install renvDemo ⟨some "C:\\RP", false, true⟩ worldDemo).1).1 "C:\\RP" = true ↔
      dirEmpty (uninstall ⟨none, true, true, none⟩ "C:\\RP"
        (install renvDemo ⟨some "C:\\RP", false, true⟩ worldDemo).1).1 "C:\\RP" = false) :=
  c1_roundtrip_ledger renvDemo ⟨some "C:\\RP", false, true⟩ worldDemo (by decide) (by decide)

end RuPing
